import Mathlib

/-!
Shallow embedding of the WeSQL HA manager and of the Kubernetes-backed
configuration store of this repository.  Go strings are modelled as lists of
characters, Go maps as association lists, engine and store I/O as explicit
oracle fields of an environment record, and a Go panic as `none`.
-/

namespace KubeBlocks

/-- Go strings are modelled as lists of characters so that the parsing
functions can be handled by structural induction. -/
abbrev Str := List Char

/-- Go map indexing with the zero value (empty string) when the key is
absent; also models mysql.RowMap.GetString. -/
def lookupD (m : List (Str × Str)) (k : Str) : Str := (List.lookup k m).getD []

/-- Row of a SQL result set, column name to cell text (mysql.RowMap). -/
abbrev RowMap := List (Str × Str)

/-- Constant ROLE, column of the global-status rows. -/
def Role : Str := "ROLE".toList

/-- Constant Leader, the role value reported by the engine for a leader. -/
def LeaderValue : Str := "Leader".toList

/-- Modelled from the spec: annotation key for the leader name; the constant
is declared outside the given source files. -/
def LeaderName : Str := "leaderName".toList

/-- Modelled from the spec: annotation key for the lease acquire time. -/
def AcquireTime : Str := "acquireTime".toList

/-- Modelled from the spec: annotation key for the lease renew time. -/
def RenewTime : Str := "renewTime".toList

/-- Modelled from the spec: annotation key for the lease ttl. -/
def TTL : Str := "ttl".toList

/-- Modelled from the spec: annotation key for the system identifier. -/
def SysID : Str := "sysID".toList

/-- Modelled from the spec: annotation key for the failover schedule time. -/
def ScheduledAt : Str := "scheduledAt".toList

/-- Modelled from the spec: annotation key for the failover candidate. -/
def Candidate : Str := "candidate".toList

/-- Strconv.Atoi: optional sign followed by at least one digit, `none` on
any other input (overflow is not modelled, integers are unbounded). -/
def digitsVal (s : Str) : Nat :=
  s.foldl (fun acc c => acc * 10 + (c.toNat - 48)) 0

/-- Go strconv.Atoi modelled as a partial integer parser. -/
def atoi (s : Str) : Option Int :=
  match s with
  | [] => none
  | c :: rest =>
    if c = '-' then
      if rest ≠ [] ∧ rest.all Char.isDigit then some (-(digitsVal rest : Int)) else none
    else if c = '+' then
      if rest ≠ [] ∧ rest.all Char.isDigit then some ((digitsVal rest : Int)) else none
    else if (c :: rest).all Char.isDigit then some ((digitsVal (c :: rest) : Int)) else none

/-- Go strings.Split with a one-character separator: list of fields, never
empty, empty fields preserved. -/
def splitOnChar (c : Char) : Str → List Str
  | [] => [[]]
  | x :: xs =>
    match splitOnChar c xs with
    | [] => [[]]
    | y :: ys => if x = c then [] :: y :: ys else (x :: y) :: ys

/-- Go strings.EqualFold restricted to simple case folding. -/
def eqFold (a b : Str) : Bool := a.map Char.toLower == b.map Char.toLower

/-- One cluster participant (dcs.Member / configuration_store Member),
built by newMember(index, name, data). -/
structure Member where
  index : Str
  name : Str
  data : List (Str × Str)
deriving Repr, DecidableEq

/-- The leadership claim observed in the store, newLeader(version, member). -/
structure Leader where
  version : Str
  member : Member
deriving Repr, DecidableEq

/-- Pending failover intent, newFailover(version, leader, candidate, at). -/
structure Failover where
  version : Str
  leader : Str
  candidate : Str
  scheduledAt : Int
deriving Repr, DecidableEq

/-- Modelled from the spec: engine-agnostic cluster configuration decoded
from the primary config record; its decoder is outside the given sources,
so it is kept as the raw annotation list. -/
structure ClusterConfig where
  data : List (Str × Str)
deriving Repr, DecidableEq

/-- The cluster snapshot assembled by the configuration store. -/
structure Cluster where
  sysID : Str
  config : Option ClusterConfig
  leader : Option Leader
  members : List Member
  failOver : Option Failover
  extra : List (Str × Str)
deriving Repr, DecidableEq

/-- Decoded lease fields (configuration_store LeaderRecord). -/
structure LeaderRecord where
  acquireTime : Int
  leader : Str
  renewTime : Int
  ttl : Int
deriving Repr, DecidableEq

/-- Constructor newLeaderRecord: each numeric annotation falls back to 0
when it does not parse. -/
def newLeaderRecord (data : List (Str × Str)) : LeaderRecord :=
  let ttl := (atoi (lookupD data TTL)).getD 0
  let acquireTime := (atoi (lookupD data AcquireTime)).getD 0
  let renewTime := (atoi (lookupD data RenewTime)).getD 0
  ⟨acquireTime, lookupD data LeaderName, renewTime, ttl⟩

/-- Modelled from the spec: the lease-expiry predicate on a LeaderRecord —
a lease is expired iff `now > renewTime + ttl` (strict); the expiry check
itself is declared outside the given source files. -/
def isExpired (r : LeaderRecord) (now : Int) : Bool :=
  decide (now > r.renewTime + r.ttl)

/-- Kubernetes config map as the store sees it: name, CAS version token and
annotation list. -/
structure ConfigMap where
  name : Str
  resourceVersion : Str
  annotations : List (Str × Str)
deriving Repr, DecidableEq

/-- Member-carrying process record (v1.Pod), reduced to its name. -/
structure Pod where
  name : Str
deriving Repr, DecidableEq

/-- Cluster object fetched from the dynamic client: CAS version token and
annotation list. -/
structure ClusterObj where
  resourceVersion : Str
  annotations : List (Str × Str)
deriving Repr, DecidableEq

/-- Modelled from the spec: getClusterConfigFromConfigMap decodes the
cluster config from the primary config record; declared outside the given
source files, kept as the raw annotations. -/
def getClusterConfigFromConfigMap (c : ConfigMap) : ClusterConfig :=
  ⟨c.annotations⟩

/-- Modelled from the spec: getMemberFromPod turns one process record into
one Member named after it; declared outside the given source files. -/
def getMemberFromPod (p : Pod) : Member :=
  ⟨[], p.name, []⟩

/-- Go slice write s[i] = a on a slice of length `xs.length`: in bounds it
updates, out of bounds it panics (`none`). -/
def setAt (xs : List Member) (i : Nat) (a : Member) : Option (List Member) :=
  if i < xs.length then some (xs.set i a) else none

/-- Member construction of loadClusterFromKubernetes: a slice made with
length 0 (capacity len(pods)) and then written at each index i. -/
def buildMembers (pods : List Pod) : Option (List Member) :=
  pods.enum.foldl
    (fun acc p =>
      match acc with
      | none => none
      | some ms => setAt ms p.1 (getMemberFromPod p.2))
    (some [])

/-- ConfigurationStore.loadClusterFromKubernetes: assembles the snapshot
from the primary config record, the failover record, the process records
and the cluster object; `none` models a Go panic. -/
def loadClusterFromKubernetes (config failoverConfig : Option ConfigMap)
    (pods : List Pod) (clusterObj : Option ClusterObj)
    (extra : List (Str × Str)) : Option Cluster :=
  let sysID : Str :=
    match config with
    | some c => lookupD c.annotations SysID
    | none => []
  let clusterConfig : Option ClusterConfig :=
    match config with
    | some c => some (getClusterConfigFromConfigMap c)
    | none => none
  let leader : Option Leader :=
    match clusterObj with
    | some co =>
        some ⟨co.resourceVersion, ⟨"-1".toList, lookupD co.annotations LeaderName, []⟩⟩
    | none => none
  match buildMembers pods with
  | none => none
  | some members =>
    let failover : Option Failover := none
    let failover : Option Failover :=
      match failover, failoverConfig with
      | some f, some fc =>
        match atoi (lookupD fc.annotations ScheduledAt) with
        | some t =>
            some ⟨fc.resourceVersion, lookupD fc.annotations LeaderName,
                  lookupD fc.annotations Candidate, t⟩
        | none => some f
      | some _, none => none
      | none, _ => none
    some ⟨sysID, clusterConfig, leader, members, failover, extra⟩

/-- Typed errors surfaced by the manager operations. -/
inductive Err where
  | connFailed
  | queryFailed
  | noAddr
  | execFailed (stmt : Str)
deriving Repr, DecidableEq

/-- Oracle environment for the engine and store I/O a manager call can
perform: connection resolution, the two consensus-info queries, the
global-status row scan, the role query, command execution and the member
health probe.  `none` models the corresponding I/O failing. -/
structure Env where
  currentMemberName : Str
  leaderConn : Option Unit
  leaderClusterInfo : Option Str
  localClusterInfo : Option Str
  globalStatusRows : Option (List RowMap)
  replicaRole : Option Str
  execOK : Bool
  healthy : Member → Bool

/-- Manager.GetClusterInfo: with a cluster it goes through the leader
connection (empty string when that fails), without one it queries the local
connection; a failed scan leaves the zero value (empty string). -/
def GetClusterInfo (env : Env) (cluster : Option Cluster) : Str :=
  match cluster with
  | some _ =>
    match env.leaderConn with
    | none => []
    | some _ => env.leaderClusterInfo.getD []
  | none => env.localClusterInfo.getD []

/-- Parsing loop of Manager.GetMemberAddrs on the membership string: take
the part before the first at-sign, split on semicolons, skip tokens without
a colon, keep each remaining token up to its first hash. -/
def parseMemberAddrs (clusterInfo : Str) : List Str :=
  let info := (splitOnChar '@' clusterInfo).headD []
  (splitOnChar ';' info).foldl
    (fun acc addr =>
      if addr.contains ':' then acc ++ [(splitOnChar '#' addr).headD []] else acc)
    []

/-- Manager.GetMemberAddrs: the parsing loop applied to GetClusterInfo. -/
def GetMemberAddrs (env : Env) (cluster : Option Cluster) : List Str :=
  parseMemberAddrs (GetClusterInfo env cluster)

/-- The claim wording of the member-address parsing: truncate at the first
at-sign, split on semicolons, drop tokens without a colon, strip each kept
token at its first hash. -/
def memberAddrsSpec (s : Str) : List Str :=
  ((splitOnChar ';' (s.takeWhile (fun y => y != '@'))).filter
      (fun t => t.contains ':')).map
    (fun t => t.takeWhile (fun y => y != '#'))

/-- Manager.GetAddrWithMemberName: first parsed address having the member
name as a prefix, empty string when there is none. -/
def GetAddrWithMemberName (env : Env) (cluster : Option Cluster)
    (memberName : Str) : Str :=
  match (GetMemberAddrs env cluster).find? (fun a => memberName.isPrefixOf a) with
  | some a => a
  | none => []

/-- Modelled from the spec: GetReplicaRole (declared outside the given
source files) queries the engine for the role this node observes for
itself; `none` models a query error. -/
def GetReplicaRole (env : Env) : Option Str := env.replicaRole

/-- Manager.IsLeader on the local connection: true iff the reported role
equals Leader up to case folding. -/
def IsLeader (env : Env) : Bool × Option Err :=
  match GetReplicaRole env with
  | none => (false, some Err.queryFailed)
  | some role => (eqFold role LeaderValue, none)

/-- Modelled from the spec: GetLeaderMember (declared outside the given
source files) returns the snapshot leader member identity, none when the
snapshot carries no leader. -/
def GetLeaderMember (cluster : Cluster) : Option Member :=
  cluster.leader.map Leader.member

/-- Manager.IsLeaderMember: pure snapshot comparison, never an error. -/
def IsLeaderMember (cluster : Cluster) (member : Option Member) :
    Bool × Option Err :=
  match member with
  | none => (false, none)
  | some m =>
    match GetLeaderMember cluster with
    | none => (false, none)
    | some lm => (if lm.name ≠ m.name then false else true, none)

/-- Manager.IsClusterInitialized: non-empty local cluster info, the error
component is the literal nil on both return paths. -/
def IsClusterInitialized (env : Env) : Bool × Option Err :=
  let clusterInfo := GetClusterInfo env none
  if clusterInfo ≠ [] then (true, none) else (false, none)

/-- Manager.IsClusterHealthy: leader connection, scan the global-status
rows keeping the last row whose ROLE is Leader, true iff that row is
non-empty; every failure collapses to false. -/
def IsClusterHealthy (env : Env) (cluster : Cluster) : Bool :=
  match env.leaderConn with
  | none => false
  | some _ =>
    match env.globalStatusRows with
    | none => false
    | some rows =>
      let leaderRecord :=
        rows.foldl (fun acc r => if lookupD r Role = LeaderValue then r else acc) []
      decide (leaderRecord.length > 0)

/-- Quote character, Char.ofNat 39. -/
def qc : Char := Char.ofNat 39

/-- Statement issued by LeaveMemberFromCluster: downgrade the member to a
learner, then drop the learner, both on the given quoted address. -/
def leaveCmd (addr : Str) : Str :=
  "call dbms_consensus.downgrade_follower(".toList ++ [qc] ++ addr ++ [qc]
    ++ ");call dbms_consensus.drop_learner(".toList ++ [qc] ++ addr ++ [qc]
    ++ ");".toList

/-- Statement issued by Promote. -/
def changeLeaderCmd (addr : Str) : Str :=
  "call dbms_consensus.change_leader(".toList ++ [qc] ++ addr ++ [qc] ++ ");".toList

/-- Manager.LeaveMemberFromCluster: result error paired with the list of
administrative statements issued. -/
def LeaveMemberFromCluster (env : Env) (cluster : Cluster)
    (memberName : Str) : Option Err × List Str :=
  match env.leaderConn with
  | none => (some Err.connFailed, [])
  | some _ =>
    let addr := GetAddrWithMemberName env (some cluster) memberName
    if addr = [] then (none, [])
    else if env.execOK then (none, [leaveCmd addr])
    else (some (Err.execFailed (leaveCmd addr)), [leaveCmd addr])

/-- Manager.Promote: result error paired with the list of administrative
statements issued; the IsLeader error is discarded as in the source. -/
def Promote (env : Env) (cluster : Cluster) : Option Err × List Str :=
  if (IsLeader env).1 then (none, [])
  else
    match env.leaderConn with
    | none => (some Err.connFailed, [])
    | some _ =>
      let addr := GetAddrWithMemberName env (some cluster) env.currentMemberName
      if addr = [] then (some Err.noAddr, [])
      else if env.execOK then (none, [changeLeaderCmd addr])
      else (some (Err.execFailed (changeLeaderCmd addr)), [changeLeaderCmd addr])

/-- Manager.HasOtherHealthyMembers: the range loop writes each roster
element into one shared loop variable and appends the address of that
variable (pre-Go-1.22 semantics), so the two skip tests see the current
element, but every appended pointer, when read after the loop returns,
yields the final value of the variable, which is the last roster element.
The fold state is the number of appended pointers paired with the loop
variable; the result models the pointers dereferenced after the loop. -/
def HasOtherHealthyMembers (env : Env) (cluster : Cluster) (leader : Str) :
    List Member :=
  let final :=
    cluster.members.foldl
      (fun (st : Nat × Option Member) m =>
        let st := (st.1, some m)
        if m.name = leader then st
        else if env.healthy m = false then st
        else (st.1 + 1, st.2))
      (0, none)
  match final.2 with
  | none => []
  | some last => List.replicate final.1 last

/-! Helper lemmas on the split and fold combinators. -/

theorem splitOnChar_ne_nil (c : Char) (s : Str) : splitOnChar c s ≠ [] := by
  induction s with
  | nil => simp [splitOnChar]
  | cons x xs ih =>
    simp only [splitOnChar]
    cases h : splitOnChar c xs with
    | nil => simp
    | cons y ys =>
      by_cases hx : x = c <;> simp [hx]

theorem headD_splitOnChar (c : Char) (s : Str) :
    (splitOnChar c s).headD [] = s.takeWhile (fun y => y != c) := by
  induction s with
  | nil => simp [splitOnChar]
  | cons x xs ih =>
    simp only [splitOnChar]
    cases h : splitOnChar c xs with
    | nil => exact absurd h (splitOnChar_ne_nil c xs)
    | cons y ys =>
      by_cases hx : x = c
      · simp [hx, List.takeWhile_cons]
      · simp only [hx, if_false, List.headD_cons, List.takeWhile_cons]
        have hb : (x != c) = true := by simpa using hx
        rw [hb]
        simp only [cond_true, List.cons.injEq, true_and]
        have := ih
        rw [h] at this
        simpa using this

theorem foldl_filter_map (p : Str → Bool) (f : Str → Str) (l : List Str) :
    ∀ acc : List Str,
      l.foldl (fun acc a => if p a then acc ++ [f a] else acc) acc
        = acc ++ (l.filter p).map f := by
  induction l with
  | nil => intro acc; simp
  | cons x xs ih =>
    intro acc
    by_cases hx : p x
    · simp [List.foldl_cons, hx, List.filter_cons, ih]
    · simp [List.foldl_cons, hx, List.filter_cons, ih]

theorem parseMemberAddrs_eq_spec (s : Str) :
    parseMemberAddrs s = memberAddrsSpec s := by
  unfold parseMemberAddrs memberAddrsSpec
  rw [foldl_filter_map]
  rw [headD_splitOnChar]
  simp only [List.nil_append]
  have hf : (fun t : Str => (splitOnChar '#' t).headD [])
      = fun t : Str => t.takeWhile (fun y => y != '#') := by
    funext t
    exact headD_splitOnChar '#' t

  rw [hf]

/-- C1: for every LeaderRecord r and every time now, the lease-expiry
predicate holds exactly when now > r.renewTime + r.ttl, and at the boundary
now = r.renewTime + r.ttl the lease is not expired. -/
theorem C1_lease_expiry (r : LeaderRecord) (now : Int) :
    (isExpired r now = true ↔ now > r.renewTime + r.ttl) ∧
    isExpired r (r.renewTime + r.ttl) = false := by
  constructor
  · simp [isExpired]
  · simp [isExpired]

/-- Fixture lease record for the C1 witness. -/
def recordC1 : LeaderRecord := ⟨100, "pod-0".toList, 100, 30⟩

/-- Witness for C1 at a concrete lease record and time. -/
theorem C1_lease_expiry_witness :
    (isExpired recordC1 131 = true ↔ (131 : Int) > recordC1.renewTime + recordC1.ttl) ∧
    isExpired recordC1 (recordC1.renewTime + recordC1.ttl) = false :=
  C1_lease_expiry recordC1 131

/-- C7: GetMemberAddrs is the parsing that truncates the membership string
at the first at-sign, splits on semicolons, drops tokens without a colon
and strips each kept token at its first hash; the example membership string
parses to exactly the two addresses, in order. -/
theorem C7_member_addr_parsing :
    (∀ s : Str, parseMemberAddrs s = memberAddrsSpec s) ∧
    (∀ env cluster, GetMemberAddrs env cluster
        = parseMemberAddrs (GetClusterInfo env cluster)) ∧
    parseMemberAddrs ("10.0.0.1:13306#1;10.0.0.2:13306#1@1000".toList)
      = ["10.0.0.1:13306".toList, "10.0.0.2:13306".toList] := by
  refine ⟨parseMemberAddrs_eq_spec, fun env cluster => rfl, by decide⟩

/-- C9: IsLeaderMember never returns an error, returns false when the
snapshot has no leader or the member argument is absent, and otherwise is
true exactly when the member name equals the snapshot leader name. -/
theorem C9_is_leader_member (cluster : Cluster) (member : Option Member) :
    (IsLeaderMember cluster member).2 = none ∧
    (cluster.leader = none → (IsLeaderMember cluster member).1 = false) ∧
    (member = none → (IsLeaderMember cluster member).1 = false) ∧
    (∀ m l, member = some m → cluster.leader = some l →
      ((IsLeaderMember cluster member).1 = true ↔ m.name = l.member.name)) := by
  refine ⟨?_, ?_, ?_, ?_⟩
  · cases member with
    | none => rfl
    | some m =>
      simp only [IsLeaderMember, GetLeaderMember]
      cases cluster.leader <;> simp
  · intro h
    cases member with
    | none => rfl
    | some m => simp [IsLeaderMember, GetLeaderMember, h]
  · intro h
    subst h
    rfl
  · intro m l hm hl
    subst hm
    have hred : IsLeaderMember cluster (some m)
        = (if l.member.name ≠ m.name then false else true, none) := by
      simp [IsLeaderMember, GetLeaderMember, hl]
    rw [hred]
    by_cases hname : l.member.name = m.name
    · rw [if_neg (not_not_intro hname)]
      exact iff_of_true rfl hname.symm
    · rw [if_pos hname]
      exact iff_of_false (by simp) (fun h => hname h.symm)

/-- Fixture member for the C9 witness. -/
def memberC9 : Member := ⟨[], "pod-0".toList, []⟩

/-- Fixture snapshot for the C9 witness, whose leader is memberC9. -/
def clusterC9 : Cluster := ⟨[], none, some ⟨"1".toList, memberC9⟩, [memberC9], none, []⟩

/-- Witness for C9 at a concrete snapshot whose leader is the member. -/
theorem C9_is_leader_member_witness :
    (IsLeaderMember clusterC9 (some memberC9)).2 = none ∧
    ((IsLeaderMember clusterC9 (some memberC9)).1 = true ↔
      memberC9.name = memberC9.name) :=
  ⟨(C9_is_leader_member clusterC9 (some memberC9)).1,
   (C9_is_leader_member clusterC9 (some memberC9)).2.2.2 memberC9
     ⟨"1".toList, memberC9⟩ rfl rfl⟩

/-- C10: IsClusterInitialized returns a nil error on every execution path;
a failed local cluster-info query is folded into (false, nil), and the
boolean reports whether the local cluster info is non-empty. -/
theorem C10_is_cluster_initialized (env : Env) :
    (IsClusterInitialized env).2 = none ∧
    (env.localClusterInfo = none → IsClusterInitialized env = (false, none)) ∧
    ((IsClusterInitialized env).1 = true ↔ GetClusterInfo env none ≠ []) := by
  refine ⟨?_, ?_, ?_⟩
  · unfold IsClusterInitialized
    by_cases h : GetClusterInfo env none = [] <;> simp [h]
  · intro h
    unfold IsClusterInitialized GetClusterInfo
    simp [h]
  · unfold IsClusterInitialized
    by_cases h : GetClusterInfo env none = [] <;> simp [h]

/-- Fixture environment for the C10 witness: the local query fails. -/
def envC10 : Env := ⟨[], none, none, none, none, none, true, fun _ => true⟩

/-- Witness for C10: a failed local query yields (false, nil). -/
theorem C10_is_cluster_initialized_witness :
    IsClusterInitialized envC10 = (false, none) :=
  (C10_is_cluster_initialized envC10).2.1 rfl

/-- C6: when the engine reports this node as already leader, Promote
returns success and issues no administrative command. -/
theorem C6_promote_noop_when_leader (env : Env) (cluster : Cluster) (r : Str)
    (hrole : env.replicaRole = some r) (hfold : eqFold r LeaderValue = true) :
    Promote env cluster = (none, []) := by
  unfold Promote IsLeader GetReplicaRole
  rw [hrole]
  simp [hfold]

/-- Fixture environment for the C6 witness: the role query reports LEADER
(case-insensitively equal to Leader). -/
def envC6 : Env :=
  ⟨"pod-0".toList, none, none, none, none, some ("LEADER".toList), true, fun _ => true⟩

/-- Fixture snapshot for the C6 witness. -/
def clusterC6 : Cluster := ⟨[], none, none, [], none, []⟩

/-- Witness for C6 at a concrete environment already reporting leadership. -/
theorem C6_promote_noop_witness : Promote envC6 clusterC6 = (none, []) :=
  C6_promote_noop_when_leader envC6 clusterC6 ("LEADER".toList) rfl (by decide)

/-- Fixture environment for the C5 counterexample: resolving the leader
connection fails, so no address resolves either. -/
def envC5bad : Env := ⟨"pod-0".toList, none, none, none, none, none, true, fun _ => true⟩

/-- Fixture snapshot for C5. -/
def clusterC5 : Cluster := ⟨[], none, none, [], none, []⟩

/-- C5 counterexample: with the leader connection failing, the address of
pod-0 does not resolve, yet LeaveMemberFromCluster returns an error instead
of success. -/
theorem C5_counterexample :
    ¬ (GetAddrWithMemberName envC5bad (some clusterC5) ("pod-0".toList) = [] →
        (LeaveMemberFromCluster envC5bad clusterC5 ("pod-0".toList)).1 = none) := by
  decide

/-- C5 amended: provided the leader connection resolves, leaving a member
whose address does not resolve succeeds with no error and issues no
administrative command; as the operation is a pure function of its inputs,
a second identical call returns the same success. -/
theorem C5_leave_absent_member_idempotent (env : Env) (cluster : Cluster)
    (memberName : Str) (u : Unit) (hconn : env.leaderConn = some u)
    (haddr : GetAddrWithMemberName env (some cluster) memberName = []) :
    LeaveMemberFromCluster env cluster memberName = (none, []) := by
  unfold LeaveMemberFromCluster
  rw [hconn]
  simp [haddr]

/-- Fixture environment for the C5 witness: leader connection resolves and
the membership string is empty, so no address resolves. -/
def envC5ok : Env := ⟨"pod-0".toList, some (), some [], none, none, none, true, fun _ => true⟩

/-- Witness for C5 at a concrete environment with an absent member. -/
theorem C5_leave_absent_member_witness :
    LeaveMemberFromCluster envC5ok clusterC5 ("pod-0".toList) = (none, []) :=
  C5_leave_absent_member_idempotent envC5ok clusterC5 ("pod-0".toList) () rfl (by decide)

/-- Scan of the global-status rows keeping the last Leader row: when no row
reports the leader role the accumulator is returned unchanged. -/
theorem foldl_pick_of_no_match (rows : List RowMap) (acc : RowMap)
    (h : ∀ r ∈ rows, ¬ lookupD r Role = LeaderValue) :
    rows.foldl (fun acc r => if lookupD r Role = LeaderValue then r else acc) acc
      = acc := by
  induction rows generalizing acc with
  | nil => rfl
  | cons x xs ih =>
    simp only [List.foldl_cons]
    rw [if_neg (h x (by simp))]
    exact ih acc (fun r hr => h r (by simp [hr]))

/-- Scan of the global-status rows keeping the last Leader row: when some
row reports the leader role the result is one of those rows. -/
theorem foldl_pick_of_match (rows : List RowMap)
    (h : ∃ r ∈ rows, lookupD r Role = LeaderValue) :
    ∀ acc : RowMap, ∃ r, r ∈ rows ∧ lookupD r Role = LeaderValue ∧
      rows.foldl (fun acc r => if lookupD r Role = LeaderValue then r else acc) acc
        = r := by
  induction rows with
  | nil => simp at h
  | cons x xs ih =>
    intro acc
    by_cases hxs : ∃ r ∈ xs, lookupD r Role = LeaderValue
    · obtain ⟨r, hr, hrole, heq⟩ :=
        ih hxs (if lookupD x Role = LeaderValue then x else acc)
      exact ⟨r, by simp [hr], hrole, heq⟩
    · have hx : lookupD x Role = LeaderValue := by
        obtain ⟨r, hr, hrole⟩ := h
        rcases List.mem_cons.mp hr with h1 | h2
        · exact h1 ▸ hrole
        · exact absurd ⟨r, h2, hrole⟩ hxs
      refine ⟨x, by simp, hx, ?_⟩
      simp only [List.foldl_cons, if_pos hx]
      exact foldl_pick_of_no_match xs x (fun r hr hrole => hxs ⟨r, hr, hrole⟩)

/-- Helper: a row whose ROLE column reads Leader is a non-empty row. -/
theorem row_ne_nil_of_leader (r : RowMap) (h : lookupD r Role = LeaderValue) :
    r ≠ [] := by
  intro hr
  subst hr
  revert h
  decide

/-- Fixture leader row for the C2 counterexample. -/
def rowC2 : RowMap := [(Role, LeaderValue)]

/-- Fixture environment for the C2 counterexample: the global-status query
returns two rows that both report the leader role. -/
def envC2 : Env := ⟨[], some (), none, none, some [rowC2, rowC2], none, true, fun _ => true⟩

/-- Fixture snapshot for C2. -/
def clusterC2 : Cluster := ⟨[], none, none, [], none, []⟩

/-- C2 counterexample: with two rows reporting the leader role the code
returns true although the exactly-one-leader-row predicate is false. -/
theorem C2_counterexample :
    ¬ (IsClusterHealthy envC2 clusterC2
        = (([rowC2, rowC2].countP (fun r => decide (lookupD r Role = LeaderValue)))
            == 1)) := by
  decide

/-- C2 amended: IsClusterHealthy returns false whenever resolving the
leader connection or executing the query fails, without propagating any
error, and otherwise returns true iff at least one global-status row
reports the leader role. -/
theorem C2_cluster_healthy (env : Env) (cluster : Cluster) :
    (env.leaderConn = none → IsClusterHealthy env cluster = false) ∧
    (env.globalStatusRows = none → IsClusterHealthy env cluster = false) ∧
    (∀ u rows, env.leaderConn = some u → env.globalStatusRows = some rows →
      (IsClusterHealthy env cluster = true ↔
        ∃ r ∈ rows, lookupD r Role = LeaderValue)) := by
  refine ⟨?_, ?_, ?_⟩
  · intro h
    unfold IsClusterHealthy
    rw [h]
  · intro h
    unfold IsClusterHealthy
    rw [h]
    cases env.leaderConn <;> rfl
  · intro u rows hconn hrows
    unfold IsClusterHealthy
    rw [hconn, hrows]
    simp only
    by_cases hm : ∃ r ∈ rows, lookupD r Role = LeaderValue
    · obtain ⟨r, hr, hrole, heq⟩ := foldl_pick_of_match rows hm []
      rw [heq]
      have hne : r ≠ [] := row_ne_nil_of_leader r hrole
      have hlen : 0 < r.length := List.length_pos.mpr hne
      exact iff_of_true (by simpa using hlen) hm
    · have heq := foldl_pick_of_no_match rows []
        (fun r hr hrole => hm ⟨r, hr, hrole⟩)
      rw [heq]
      exact iff_of_false (by simp) hm

/-- Fixture environment for the C2 witness: one leader row. -/
def envC2ok : Env := ⟨[], some (), none, none, some [rowC2], none, true, fun _ => true⟩

/-- Fixture environment for the C2 witness: connection resolution fails. -/
def envC2none : Env := ⟨[], none, none, none, none, none, true, fun _ => true⟩

/-- Witness for C2 at a failing connection and at a one-leader-row query. -/
theorem C2_cluster_healthy_witness :
    IsClusterHealthy envC2none clusterC2 = false ∧
    (IsClusterHealthy envC2ok clusterC2 = true ↔
      ∃ r ∈ [rowC2], lookupD r Role = LeaderValue) :=
  ⟨(C2_cluster_healthy envC2none clusterC2).1 rfl,
   (C2_cluster_healthy envC2ok clusterC2).2.2 () [rowC2] rfl rfl⟩

/-- Fixture healthy peer for C8, first in the roster. -/
def memberC8a : Member := ⟨[], "pod-1".toList, []⟩

/-- Fixture leader member for C8, last in the roster. -/
def memberC8b : Member := ⟨[], "pod-0".toList, []⟩

/-- Fixture environment for C8: every member is healthy. -/
def envC8 : Env := ⟨"pod-0".toList, none, none, none, none, none, true, fun _ => true⟩

/-- Fixture snapshot for C8: the healthy peer pod-1 first, the excluded
leader pod-0 last. -/
def clusterC8 : Cluster := ⟨[], none, none, [memberC8a, memberC8b], none, []⟩

/-- C8: at the fixture roster the healthy peer pod-1 passes both skip
tests and one pointer is appended, but after the loop that pointer reads
the last roster element pod-0, so the returned sequence is exactly one
member whose name equals the excluded leader name. -/
theorem C8_aliased_leader_returned :
    HasOtherHealthyMembers envC8 clusterC8 ("pod-0".toList) = [memberC8b] ∧
    memberC8b.name = "pod-0".toList := by
  decide

/-- Fixture failover record for C3: scheduledAt parses to 1000. -/
def fcC3 : ConfigMap :=
  ⟨"failover".toList, "5".toList,
    [(ScheduledAt, "1000".toList), (LeaderName, "pod-0".toList),
     (Candidate, "pod-1".toList)]⟩

/-- C3: the failover record of the fixture is present and its scheduledAt
annotation parses, yet the materialized snapshot carries no Failover; in
fact no input at all makes the materialization carry a Failover, because
the decode is guarded by a test of the still-nil local variable. -/
theorem C3_failover_never_decoded :
    atoi (lookupD fcC3.annotations ScheduledAt) = some 1000 ∧
    (loadClusterFromKubernetes none (some fcC3) [] none []).map Cluster.failOver
      = some none ∧
    (∀ config fc pods co extra,
      ((loadClusterFromKubernetes config fc pods co extra).map
          Cluster.failOver).getD none = none) := by
  refine ⟨by decide, by decide, ?_⟩
  intro config fc pods co extra
  unfold loadClusterFromKubernetes
  cases buildMembers pods <;> simp

/-- C4: building the Members sequence writes member i into a slice created
with length zero, so the construction succeeds only on the empty listing
and panics (models as none) on every non-empty listing, in particular on a
single process record. -/
theorem C4_member_write_out_of_bounds :
    buildMembers [] = some [] ∧
    (∀ p rest, buildMembers (p :: rest) = none) ∧
    loadClusterFromKubernetes none none [⟨"pod-0".toList⟩] none [] = none := by
  refine ⟨rfl, ?_, by decide⟩
  intro p rest
  unfold buildMembers
  rw [List.enum_cons]
  simp only [List.foldl_cons]
  have h0 : setAt [] 0 (getMemberFromPod p) = none := rfl
  rw [h0]
  induction rest.enumFrom 1 with
  | nil => rfl
  | cons x xs ih => simpa using ih

end KubeBlocks
